import Mathlib

/-!
Shallow embedding of the process / context / IPC core of the Xous kernel
(`src/kernel/src/services.rs`) and of the hosted connection worker
(`src/kernel/src/arch/hosted/mod.rs`).

Machine integers (`usize`, `u8`) are modelled as `Nat`; the bitmask
operations used by the source (`&`, `|`, `<<`, `& !(1 << c)`) never
overflow, so no reduction modulo a word size is needed.  Fallible Rust
functions are modelled with an explicit result type `Res` that also has a
`panic` outcome, mirroring Rust panics (failed `assert!`/`expect`/index
out of bounds).  External collaborators (the MMU driver, the per-thread
register bank, `Server::queue_message`, `SysCall::from_args`) are
abstracted as oracles passed in as parameters; the state they own is not
modelled, only the calls the core makes into them where those calls
matter for the claims (address-space activation is tracked explicitly in
the `active` field).
-/

/-! ## Definitions: the shallow embedding of the kernel core -/

/-- The subset of `xous::Error` values produced by the modelled code. -/
inductive XousError where
  | processNotFound
  | serverNotFound
  | outOfMemory
  | contextNotAvailable
  | badAddress
  deriving DecidableEq, Repr

/-- Outcome of a fallible Rust function: `Ok`, `Err`, or a Rust panic
(failed assertion, `expect`, or slice index out of bounds). -/
inductive Res (α : Type) where
  | ok (a : α)
  | err (e : XousError)
  | panic
  deriving DecidableEq, Repr

/-- `ProcessState` from services.rs. -/
inductive PState where
  | free
  | setup (entrypoint sp stackSize : Nat)
  | ready (mask : Nat)
  | running (mask : Nat)
  | sleeping
  deriving DecidableEq, Repr

/-- `Process` from services.rs.  The opaque `MemoryMapping` is modelled by
the PID it records (`mapping.get_pid()`); per the spec the SATP encodes
exactly the page-table root plus this PID, and mapping equality in the
source's assertions is equality of these values. -/
structure Proc where
  mappingPid : Nat
  state : PState
  ppid : Nat
  currentContext : Nat
  previousContext : Nat
  deriving DecidableEq, Repr

/-- One entry of the server table.  Only the fields the modelled code
reads: the owning process and the server ID (the 4-word SID is modelled
as one opaque `Nat`). -/
structure ServerM where
  pid : Nat
  sid : Nat
  deriving DecidableEq, Repr

/-- `SystemServices` from services.rs, together with the architectural
state the modelled operations interact with: `active` is the identity
(recorded PID) of the currently-active address space, updated by every
`mapping.activate()` call. -/
structure Sys where
  pid : Nat
  processes : List Proc
  servers : List (Option ServerM)
  active : Nat
  deriving DecidableEq, Repr

/-- `SystemServices::get_process`.  `pid == 0` and a mismatched
`mapping.get_pid()` return `ProcessNotFound`; an index past the end of
the 32-entry `processes` array is a Rust panic. -/
def getProcess (s : Sys) (pid : Nat) : Res Proc :=
  if pid = 0 then .err .processNotFound
  else
    match s.processes.get? (pid - 1) with
    | none => .panic
    | some p => if p.mappingPid ≠ pid then .err .processNotFound else .ok p

/-- `SystemServices::get_process_mut`: identical logic to `get_process`
(the mutability of the returned reference is irrelevant to the model). -/
def getProcessMut (s : Sys) (pid : Nat) : Res Proc :=
  if pid = 0 then .err .processNotFound
  else
    match s.processes.get? (pid - 1) with
    | none => .panic
    | some p => if p.mappingPid ≠ pid then .err .processNotFound else .ok p

/-- `SystemServices::current_pid`.  Asserts that the arch PID is nonzero,
that the recorded mapping of the current slot equals the active mapping,
and that the arch PID equals `self.pid` (the two PID notions are
conflated in the model); any failed assertion is a panic. -/
def currentPidM (s : Sys) : Res Nat :=
  if s.pid = 0 then .panic
  else
    match s.processes.get? (s.pid - 1) with
    | none => .panic
    | some p => if p.mappingPid = s.active then .ok s.pid else .panic

/-- `SystemServices::server_from_sidx`.  The source guard is
`sidx > servers.len()` (not `>=`), so `sidx == 32` reaches the index
expression `self.servers[sidx]` and panics. -/
def serverFromSidx (servers : List (Option ServerM)) (sidx : Nat) : Res (Option ServerM) :=
  if sidx > servers.length then .ok none
  else
    match servers.get? sidx with
    | none => .panic
    | some o => .ok o

/-- `Server::queue_message` lives outside src/; its outcome is an oracle
parameter `qres`.  `SystemServices::queue_server_message`: look up the
server (a `None` becomes `ServerNotFound`), activate the server process's
mapping, enqueue, then re-activate the caller's mapping and return the
enqueue result.  The second component of the result is the active
address space on exit. -/
def queueServerMessage (s : Sys) (qres : Except XousError Unit) (sidx : Nat) :
    Res Unit × Nat :=
  match currentPidM s with
  | .ok cp =>
    match serverFromSidx s.servers sidx with
    | .panic => (.panic, s.active)
    | .err e => (.err e, s.active)
    | .ok none => (.err .serverNotFound, s.active)
    | .ok (some srv) =>
      match getProcess s srv.pid with
      | .err e => (.err e, s.active)
      | .panic => (.panic, s.active)
      | .ok sp =>
        let act1 := sp.mappingPid
        match serverFromSidx s.servers sidx with
        | .ok (some _) =>
          match getProcess s cp with
          | .ok curp =>
            match qres with
            | .ok _ => (.ok (), curp.mappingPid)
            | .error e => (.err e, curp.mappingPid)
          | _ => (.panic, act1)
        | _ => (.panic, act1)
  | _ => (.panic, s.active)

/-- A decoded syscall.  `SysCall::from_args` lives outside src/, so the
decode result of a frame is supplied as data; only `TerminateProcess`
needs to be distinguished. -/
inductive SysCallM where
  | terminateProcess
  | other (n : Nat)
  deriving DecidableEq, Repr

/-- What one iteration of `handle_connection`'s read phase produced:
either the connection failed with a non-`WouldBlock` error (disconnect),
or an 8-word frame whose decode result is `call` (`none` when
`SysCall::from_args` returned `Err`). -/
inductive ReadOutcome where
  | disconnected
  | frame (call : Option SysCallM)
  deriving DecidableEq, Repr

/-- One iteration of the `handle_connection` loop: the messages sent on
the dispatch channel and whether the loop continues.  A disconnect sends
a synthesized `TerminateProcess` and exits; a decode error only prints
and continues; a decoded call is forwarded and the loop continues. -/
def handleFrame (pid : Nat) : ReadOutcome → List (Nat × SysCallM) × Bool
  | .disconnected => ([(pid, .terminateProcess)], false)
  | .frame none => ([], true)
  | .frame (some c) => ([(pid, c)], true)

/-- The whole `handle_connection` loop over a finite trace of read
outcomes: concatenates the sent messages, stopping at the first
iteration that exits. -/
def handleConnection (pid : Nat) : List ReadOutcome → List (Nat × SysCallM)
  | [] => []
  | r :: rest =>
    let step := handleFrame pid r
    if step.2 then step.1 ++ handleConnection pid rest else step.1

/-- A one-slot valid system state used for concrete evaluations: PID 1 is
current, its slot records mapping 1, the mapping is active, and the
server table is the 32 empty slots. -/
def sysOneProc : Sys :=
  { pid := 1
    processes := ⟨1, .running 0, 0, 2, 2⟩ :: List.replicate 31 ⟨0, .free, 0, 0, 2⟩
    servers := List.replicate 32 none
    active := 1 }

/-- Result of the first loop of `connect_to_server` over the caller's
connection map: an early return with an existing CID, loop completion
carrying the tracked free slot, or a panic from the `self.servers[v]`
index when a map entry exceeds the table length. -/
inductive ScanRes where
  | found (cid : Nat)
  | free (slot : Option Nat)
  | panic
  deriving DecidableEq, Repr

/-- The first loop of `connect_to_server`.  For each entry `v` at map
index `idx`: a zero entry overwrites the tracked free slot (so the loop
ends holding the LAST free slot); then `self.servers[v as usize]` is
indexed — note the source does not subtract 1 from the stored 1-based
value — and if that table slot holds a server whose SID matches, the
loop returns `idx + 1` immediately. -/
def connScan (servers : List (Option ServerM)) (sid : Nat) :
    Nat → Option Nat → List Nat → ScanRes
  | _, slot, [] => .free slot
  | idx, slot, v :: rest =>
    match servers.get? v with
    | none => .panic
    | some none => connScan servers sid (idx + 1) (if v = 0 then some idx else slot) rest
    | some (some srv) =>
      if srv.sid = sid then .found (idx + 1)
      else connScan servers sid (idx + 1) (if v = 0 then some idx else slot) rest

/-- The second loop of `connect_to_server`: index of the first server
table entry holding the requested SID. -/
def findServer (servers : List (Option ServerM)) (sid : Nat) : Option Nat :=
  servers.findIdx? fun o =>
    match o with
    | some srv => srv.sid = sid
    | none => false

/-- `SystemServices::connect_to_server`, acting on the caller's
32-entry connection map `cmap`.  Returns the call's result and the
(possibly updated) map. -/
def connectToServer (servers : List (Option ServerM)) (sid : Nat) (cmap : List Nat) :
    Res Nat × List Nat :=
  match connScan servers sid 0 none cmap with
  | .panic => (.panic, cmap)
  | .found cid => (.ok cid, cmap)
  | .free none => (.err .outOfMemory, cmap)
  | .free (some slot) =>
    match findServer servers sid with
    | some j => (.ok (j + 1), cmap.set slot (j + 1))
    | none => (.err .outOfMemory, cmap)

/-- Index of the last zero entry of a list, if any: the slot that
`connect_to_server`'s first loop is left holding. -/
def lastZero : List Nat → Option Nat
  | [] => none
  | v :: rest =>
    match lastZero rest with
    | some i => some (i + 1)
    | none => if v = 0 then some 0 else none

/-- `PAGE_SIZE` comes from `crate::mem`, outside src/; its value 4096 is
fixed by the spec. -/
def PAGE_SIZE : Nat := 4096

/-- The page addresses after the first one:
`((src + PAGE_SIZE)..(src + len)).step_by(PAGE_SIZE)`. -/
def tailPages (src len : Nat) : List Nat :=
  List.range' (src + PAGE_SIZE) ((len - 1) / PAGE_SIZE) PAGE_SIZE

/-- The unmap phase of `send_memory` over the unmap oracle: the first
page's physical address (0 on failure) plus an `error` slot that every
failure OVERWRITES; the loop continues past failures. -/
def unmapPhase (unmap : Nat → Except XousError Nat) (src len : Nat) :
    Option XousError × Nat :=
  ((tailPages src len).foldl
    (fun acc a => match unmap a with | .error e => some e | .ok _ => acc)
    (match unmap src with | .error e => some e | .ok _ => none),
   match unmap src with | .ok p => p | .error _ => 0)

/-- The unmap failures of the pages of `[src, src+len)`, in page order. -/
def unmapErrors (unmap : Nat → Except XousError Nat) (src len : Nat) : List XousError :=
  (src :: tailPages src len).filterMap fun a =>
    match unmap a with | .error e => some e | .ok _ => none

/-- The last element of a list, if any. -/
def lastSome : List XousError → Option XousError
  | [] => none
  | e :: rest => match lastSome rest with | some x => some x | none => some e

/-- `SystemServices::send_memory`.  `unmap` and `mapRange` are the memory
manager oracle (outside the core); the per-page `hand_page_to_user`
calls are external and elided.  Returns the result and the active
address space on exit.  Note that on the map-failure path the final
`println!` evaluates `result.as_ref().unwrap()`, which panics — but only
after the caller's mapping has been re-activated. -/
def sendMemory (unmap : Nat → Except XousError Nat)
    (mapRange : Nat → Nat → Nat → Except XousError Nat)
    (s : Sys) (srcVirt destPid len : Nat) : Res Nat × Nat :=
  match currentPidM s with
  | .ok cp =>
    match unmapPhase unmap srcVirt len with
    | (some e, _) => (.err e, s.active)
    | (none, phys) =>
      match getProcess s destPid with
      | .err e => (.err e, s.active)
      | .panic => (.panic, s.active)
      | .ok dp =>
        match getProcess s cp with
        | .ok curp =>
          match mapRange phys len destPid with
          | .ok virt => (.ok virt, curp.mappingPid)
          | .error _ => (.panic, curp.mappingPid)
        | _ => (.panic, dp.mappingPid)
  | _ => (.panic, s.active)

/-- `SystemServices::set_context_result`: activate the target's mapping,
write the result into the target's register bank for `context` (the
bank is external state, not modelled), then re-activate the caller's
mapping.  Returns the result and the active address space on exit. -/
def setContextResult (s : Sys) (pid context : Nat) : Res Unit × Nat :=
  match currentPidM s with
  | .ok cp =>
    match getProcess s pid with
    | .err e => (.err e, s.active)
    | .panic => (.panic, s.active)
    | .ok tp =>
      match getProcess s cp with
      | .ok curp => (.ok (), curp.mappingPid)
      | _ => (.panic, tp.mappingPid)
  | _ => (.panic, s.active)

/-- `INITIAL_CONTEXT` from services.rs. -/
def INITIAL_CONTEXT : Nat := 2

/-- `x & !(1 << c)` on usize: clear bit `c` of `x` (for every `Nat` this
subtraction equals the masked complement, since `x &&& (1 <<< c)` is
either `2 ^ c` or `0`). -/
def clearBit (x c : Nat) : Nat := x - (x &&& (1 <<< c))

/-- The `current_context += 1; if current_context > MAX_CONTEXT { 0 }`
step used by `advance_context`, and the step of the round-robin scan. -/
def advanceCtx (maxCtx c : Nat) : Nat := if c + 1 > maxCtx then 0 else c + 1

/-- The round-robin scan of `activate_process_context`: starting at the
target's `current_context`, test bits of `x`, advancing modulo
`MAX_CONTEXT+1` and returning `ProcessNotFound` once the scan is back at
`start`.  `fuel` bounds the iterations (`maxCtx + 1` suffices whenever
`start ≤ maxCtx`); exhaustion stands for the loop never terminating,
which no theorem below reaches. -/
def scanNextCtx (maxCtx x start : Nat) : Nat → Nat → Res Nat
  | 0, nc => if x &&& (1 <<< nc) ≠ 0 then .ok nc else .panic
  | fuel + 1, nc =>
    if x &&& (1 <<< nc) ≠ 0 then .ok nc
    else
      let nc' := advanceCtx maxCtx nc
      if nc' = start then .err .processNotFound
      else scanNextCtx maxCtx x start fuel nc'

/-- The target-validation phase of `activate_process_context` when the
PID differs from the caller's: `Free`/`Sleeping` fail, `Setup` forces
`INITIAL_CONTEXT`, `Running`/`Ready` first hit `assert!(x != 0)` (a
panic when the mask is empty), then either scan (when `new_context == 0`)
or require the requested context's bit. -/
def chooseNewContext (maxCtx : Nat) (newP : Proc) (newContext0 : Nat) : Res Nat :=
  match newP.state with
  | .free => .err .processNotFound
  | .setup _ _ _ => .ok INITIAL_CONTEXT
  | .running x | .ready x =>
    if x = 0 then .panic
    else if newContext0 = 0 then
      scanNextCtx maxCtx x newP.currentContext (maxCtx + 1) newP.currentContext
    else if x &&& (1 <<< newContext0) = 0 then .err .processNotFound
    else .ok newContext0
  | .sleeping => .err .processNotFound

/-- The new process's state after the switch: `Setup` becomes
`Running(0)` (its thread-bank initialization and stack reservation are
external calls, modelled as succeeding), `Ready(x)`/`Running(x)` drop
the chosen context's bit, `Sleeping` becomes `Running(0)` (unreachable:
validation already rejected it), and `Free` panics. -/
def newStateAfter (newP : Proc) (newContext : Nat) : Res PState :=
  match newP.state with
  | .setup _ _ _ => .ok (.running 0)
  | .free => .panic
  | .ready x | .running x => .ok (.running (clearBit x newContext))
  | .sleeping => .ok (.running 0)

/-- The previous process's state after switching away: `Running(0)`
sleeps or becomes `Ready(1 << prev)` depending on `can_resume`;
`Running(x)` becomes `Ready(x | 1 << prev)` or `Ready(x)`; anything else
panics. -/
def prevStateAfter (prevProc : Proc) (previousContext : Nat) (canResume : Bool) : Res PState :=
  match prevProc.state with
  | .running x =>
    if x = 0 then .ok (if canResume then .ready (1 <<< previousContext) else .sleeping)
    else .ok (if canResume then .ready (x ||| (1 <<< previousContext)) else .ready x)
  | _ => .panic

/-- The same-PID state update of `activate_process_context`: requires
`Running` with the requested context's bit set (else `ProcessNotFound`);
with `can_resume` the previous context's bit is added and the new one
removed, WITHOUT `can_resume` the source only adds the previous
context's bit and leaves the new context's bit in the mask. -/
def samePidState (st : PState) (previousContext newContext : Nat) (canResume : Bool) :
    Res PState :=
  match st with
  | .running x =>
    if x &&& (1 <<< newContext) = 0 then .err .processNotFound
    else if canResume then
      .ok (.running (clearBit (x ||| (1 <<< previousContext)) newContext))
    else .ok (.running (x ||| (1 <<< previousContext)))
  | _ => .panic

/-- Replace the process record at slot `i`. -/
def setProcAt (s : Sys) (i : Nat) (p : Proc) : Sys :=
  { s with processes := s.processes.set i p }

/-- The common tail of `activate_process_context`: record the new PID,
switch the register bank (external), and store the chosen context in the
new process's slot. -/
def finishActivate (s : Sys) (newPid newContext : Nat) : Res (Nat × Sys) :=
  match s.processes.get? (newPid - 1) with
  | none => .panic
  | some p => .ok (newContext,
      { s with pid := newPid,
               processes := s.processes.set (newPid - 1) { p with currentContext := newContext } })

/-- `SystemServices::activate_process_context`.  `maxCtx` is
`arch::process::MAX_CONTEXT` (arch code outside src/, left as a
parameter).  Returns the chosen context and the updated state. -/
def activateProcessContext (maxCtx : Nat) (s : Sys) (newPid newContext0 : Nat)
    (canResume advanceContext : Bool) : Res (Nat × Sys) :=
  match currentPidM s with
  | .ok previousPid =>
    match s.processes.get? (previousPid - 1) with
    | none => .panic
    | some prevProc =>
      if newPid ≠ previousPid then
        match getProcessMut s newPid with
        | .err e => .err e
        | .panic => .panic
        | .ok newP =>
          match chooseNewContext maxCtx newP newContext0 with
          | .err e => .err e
          | .panic => .panic
          | .ok newContext =>
            match newStateAfter newP newContext with
            | .ok nst =>
              let s1 := { s with active := newP.mappingPid }
              let s2 := setProcAt s1 (newPid - 1) { newP with state := nst }
              match getProcessMut s2 previousPid with
              | .ok prevP2 =>
                match prevStateAfter prevP2 prevProc.currentContext canResume with
                | .ok pst =>
                  let prevP3 := { prevP2 with state := pst }
                  let prevP4 := if advanceContext
                    then { prevP3 with currentContext := advanceCtx maxCtx prevP3.currentContext }
                    else prevP3
                  finishActivate (setProcAt s2 (previousPid - 1) prevP4) newPid newContext
                | _ => .panic
              | _ => .panic
            | _ => .panic
      else
        if prevProc.currentContext = newContext0 then
          if canResume then .ok (newContext0, s) else .panic
        else
          match getProcessMut s newPid with
          | .err e => .err e
          | .panic => .panic
          | .ok newP =>
            match samePidState newP.state prevProc.currentContext newContext0 canResume with
            | .err e => .err e
            | .panic => .panic
            | .ok nst =>
              let newP2 := { newP with state := nst }
              let newP3 := if advanceContext
                then { newP2 with currentContext := advanceCtx maxCtx newP2.currentContext }
                else newP2
              finishActivate (setProcAt s (newPid - 1) newP3) newPid newContext0
  | _ => .panic

/-- A state with one runnable extra thread in the current process: PID 1
is current and `Running(8)` (thread 3 ready) with `current_context = 2`. -/
def sysC2 : Sys :=
  { pid := 1
    processes := ⟨1, .running 8, 0, 2, 2⟩ :: List.replicate 31 ⟨0, .free, 0, 0, 2⟩
    servers := List.replicate 32 none
    active := 1 }

/-- Two processes: PID 1 current and `Running(0)`, PID 2 `Ready(0)` —
the state in which C6 claims `activate` returns `ProcessNotFound`. -/
def sysC6 : Sys :=
  { pid := 1
    processes := ⟨1, .running 0, 0, 2, 2⟩ :: ⟨2, .ready 0, 1, 2, 2⟩ ::
      List.replicate 30 ⟨0, .free, 0, 0, 2⟩
    servers := List.replicate 32 none
    active := 1 }

/-- `InitialProcess` from services.rs. -/
structure InitialProcess where
  satp : Nat
  entrypoint : Nat
  sp : Nat
  deriving DecidableEq, Repr

/-- `DEFAULT_STACK_SIZE` from services.rs. -/
def DEFAULT_STACK_SIZE : Nat := 131072

/-- The PID a boot descriptor encodes: `(satp >> 22) & ((1 << 9) - 1)`. -/
def pidOfDesc (d : InitialProcess) : Nat := (d.satp >>> 22) &&& ((1 <<< 9) - 1)

/-- The record `init` writes into a descriptor's slot: the mapping is
set via `from_raw` (which stores the SATP, whose PID field the mapping
model keeps); pid 1 becomes the `Running(0)` kernel with parent 0,
every other pid becomes `Setup(entrypoint, sp, DEFAULT_STACK_SIZE)`
with parent 1. -/
def descProc (p : Proc) (d : InitialProcess) : Proc :=
  if pidOfDesc d = 1
  then { p with mappingPid := pidOfDesc d, ppid := 0, state := .running 0 }
  else { p with mappingPid := pidOfDesc d, ppid := 1, state := .setup d.entrypoint d.sp DEFAULT_STACK_SIZE }

/-- One iteration of `init`'s descriptor loop: pick slot `pid - 1` (a
zero pid underflows the index and a pid past the table is out of
bounds, both Rust panics — `none`) and write `descProc`. -/
def initStep (s : Sys) (d : InitialProcess) : Option Sys :=
  if pidOfDesc d = 0 then none
  else
    match s.processes.get? (pidOfDesc d - 1) with
    | none => none
    | some p => some (setProcAt s (pidOfDesc d - 1) (descProc p d))

/-- `init`'s loop over the boot descriptor array. -/
def initLoop : Sys → List InitialProcess → Option Sys
  | s, [] => some s
  | s, d :: ds =>
    match initStep s d with
    | some s' => initLoop s' ds
    | none => none

/-- `SystemServices::init`: run the descriptor loop, then set slot 0's
`current_context` to `INITIAL_CONTEXT` (the `ProcessHandle::init` call
is external). -/
def initSS (s : Sys) (ds : List InitialProcess) : Option Sys :=
  match initLoop s ds with
  | none => none
  | some s1 =>
    match s1.processes.get? 0 with
    | none => none
    | some p0 => some (setProcAt s1 0 { p0 with currentContext := INITIAL_CONTEXT })

/-- A fresh 32-slot system for the boot witness. -/
def sysBoot : Sys :=
  { pid := 1
    processes := List.replicate 32 ⟨0, .free, 0, 0, 2⟩
    servers := List.replicate 32 none
    active := 1 }

/-- The two-descriptor boot array of the spec's first scenario. -/
def bootDescs : List InitialProcess :=
  [⟨1 <<< 22, 256, 512⟩, ⟨2 <<< 22, 768, 1024⟩]

/-- `SystemServices::ready_context`: look up the process (propagating
`ProcessNotFound` via `?`), then set bit `context` of its mask: a
`Running` or `Ready` mask gains the bit only if the bit is currently
clear, `Sleeping` becomes `Ready(1 << context)`, and anything else —
including an already-set bit, which falls through the match guards —
panics. -/
def readyContext (s : Sys) (pid context : Nat) : Res Sys :=
  match getProcessMut s pid with
  | .err e => .err e
  | .panic => .panic
  | .ok p =>
    match p.state with
    | .running x =>
      if x &&& (1 <<< context) = 0
      then .ok (setProcAt s (pid - 1) { p with state := .running (x ||| (1 <<< context)) })
      else .panic
    | .ready x =>
      if x &&& (1 <<< context) = 0
      then .ok (setProcAt s (pid - 1) { p with state := .ready (x ||| (1 <<< context)) })
      else .panic
    | .sleeping => .ok (setProcAt s (pid - 1) { p with state := .ready (1 <<< context) })
    | _ => .panic

/-! ## Theorems -/

/-- C4: the claim as stated is false.  A frame that fails to decode does
not make the worker send `TerminateProcess` and exit: it sends nothing
and continues, and a later valid frame is still forwarded. -/
theorem c4_decode_error_counterexample :
    handleFrame 5 (.frame none) = ([], true) ∧
    handleFrame 5 (.frame none) ≠ ([(5, .terminateProcess)], false) ∧
    handleConnection 5 [.frame none, .frame (some (.other 3))] = [(5, .other 3)] := by
  refine ⟨rfl, by decide, rfl⟩

/-- C4 (amended): only a disconnect makes the worker synthesize
`TerminateProcess` for its PID and exit; a frame that fails to decode is
logged and skipped, and the worker keeps reading further frames. -/
theorem c4_worker_behaviour (pid : Nat) (rest : List ReadOutcome) :
    handleFrame pid .disconnected = ([(pid, .terminateProcess)], false) ∧
    handleFrame pid (.frame none) = ([], true) ∧
    (∀ c, handleFrame pid (.frame (some c)) = ([(pid, c)], true)) ∧
    handleConnection pid (.disconnected :: rest) = [(pid, .terminateProcess)] ∧
    handleConnection pid (.frame none :: rest) = handleConnection pid rest := by
  refine ⟨rfl, rfl, fun c => rfl, rfl, ?_⟩
  simp [handleConnection, handleFrame]

/-- C5: evaluation at the failing input.  With the 32-entry server table,
`queue_server_message` with `sidx == 32` panics (the `sidx > len` guard
admits 32, and `self.servers[32]` is out of bounds), while `sidx == 33`
does return `ServerNotFound`. -/
theorem c5_sidx32_panics :
    (queueServerMessage sysOneProc (.ok ()) 32).1 = .panic ∧
    (queueServerMessage sysOneProc (.ok ()) 33).1 = .err .serverNotFound ∧
    serverFromSidx (List.replicate 32 (none : Option ServerM)) 32 = .panic := by
  refine ⟨by decide, by decide, by decide⟩

/-- The two lookup functions have identical bodies. -/
theorem getProcessMut_eq_getProcess : getProcessMut = getProcess := rfl

/-- Any error from `getProcess` is `ProcessNotFound` and arises only from
a zero PID or a slot whose recorded mapping PID differs. -/
theorem getProcess_err_cases (s : Sys) (pid : Nat)
    (hlen : s.processes.length = 32) :
    ∀ e, getProcess s pid = .err e →
      e = .processNotFound ∧
      (pid = 0 ∨ (1 ≤ pid ∧ pid ≤ 32 ∧
        ∃ p, s.processes.get? (pid - 1) = some p ∧ p.mappingPid ≠ pid)) := by
  intro e he
  unfold getProcess at he
  split at he
  · rename_i h0
    simp only [Res.err.injEq] at he
    subst he
    exact ⟨rfl, Or.inl h0⟩
  · rename_i h0
    split at he
    · simp at he
    · rename_i p hg
      split at he
      · rename_i hm
        simp only [Res.err.injEq] at he
        subst he
        obtain ⟨hlt, -⟩ := List.get?_eq_some.mp hg
        rw [hlen] at hlt
        exact ⟨rfl, Or.inr ⟨by omega, by omega, p, hg, hm⟩⟩
      · simp at he

/-- A PID past the table's end makes `getProcess` panic. -/
theorem getProcess_oob_panic (s : Sys) (pid : Nat)
    (hlen : s.processes.length = 32) (hgt : 32 < pid) :
    getProcess s pid = .panic := by
  unfold getProcess
  rw [if_neg (by omega : ¬ pid = 0)]
  have hn : s.processes.get? (pid - 1) = none := by
    rw [List.get?_eq_none]
    omega
  rw [hn]

/-- C10: `get_process` and `get_process_mut` return an error only for
`pid == 0` or for `pid ∈ [1, 32]` whose slot records a different PID, the
error is always `ProcessNotFound`, and every `pid > 32` panics (the index
`pid - 1` is out of the 32-entry table's bounds). -/
theorem c10_get_process_bounds (s : Sys) (pid : Nat)
    (hlen : s.processes.length = 32) :
    (∀ e, getProcess s pid = .err e →
      e = .processNotFound ∧
      (pid = 0 ∨ (1 ≤ pid ∧ pid ≤ 32 ∧
        ∃ p, s.processes.get? (pid - 1) = some p ∧ p.mappingPid ≠ pid))) ∧
    (32 < pid → getProcess s pid = .panic) ∧
    (∀ e, getProcessMut s pid = .err e →
      e = .processNotFound ∧
      (pid = 0 ∨ (1 ≤ pid ∧ pid ≤ 32 ∧
        ∃ p, s.processes.get? (pid - 1) = some p ∧ p.mappingPid ≠ pid))) ∧
    (32 < pid → getProcessMut s pid = .panic) := by
  rw [getProcessMut_eq_getProcess]
  exact ⟨getProcess_err_cases s pid hlen, getProcess_oob_panic s pid hlen,
    getProcess_err_cases s pid hlen, getProcess_oob_panic s pid hlen⟩

/-- C10 witness: at a concrete state, `get_process 5` on an empty slot
returns `ProcessNotFound` for the mismatch reason and `get_process 33`
panics. -/
theorem c10_get_process_bounds_witness :
    getProcess sysOneProc 33 = .panic ∧ getProcessMut sysOneProc 33 = .panic := by
  have h := c10_get_process_bounds sysOneProc 33 (by decide)
  exact ⟨h.2.1 (by decide), h.2.2.2 (by decide)⟩

/-- When no map entry references a server with the requested SID (and
every entry is a valid table index), the first loop completes and is
left holding the last free slot. -/
theorem connScan_free (servers : List (Option ServerM)) (sid : Nat) (l : List Nat)
    (h : ∀ v ∈ l, ∃ o, servers.get? v = some o ∧ ∀ srv, o = some srv → srv.sid ≠ sid) :
    ∀ idx slot, connScan servers sid idx slot l =
      .free (match lastZero l with | some i => some (idx + i) | none => slot) := by
  induction l with
  | nil => intro idx slot; rfl
  | cons v rest ih =>
    intro idx slot
    obtain ⟨o, ho, hno⟩ := h v (List.mem_cons_self _ _)
    have hrest : ∀ w ∈ rest, ∃ o, servers.get? w = some o ∧
        ∀ srv, o = some srv → srv.sid ≠ sid :=
      fun w hw => h w (List.mem_cons_of_mem _ hw)
    have hstep : connScan servers sid idx slot (v :: rest) =
        connScan servers sid (idx + 1) (if v = 0 then some idx else slot) rest := by
      cases o with
      | none => simp only [connScan, ho]
      | some srv => simp only [connScan, ho, if_neg (hno srv rfl)]
    rw [hstep, ih hrest (idx + 1) _]
    cases hz : lastZero rest with
    | some i =>
      simp only [lastZero, hz]
      have : idx + 1 + i = idx + (i + 1) := by omega
      rw [this]
    | none =>
      by_cases hv : v = 0
      · subst hv
        simp [lastZero, hz]
      · simp only [lastZero, hz, if_neg hv]

/-- C1: the claim as stated is false.  With server table
`[None, Some(sid=7), None × 30]` and an all-zero connection map, the
first `connect_to_server(7)` succeeds with CID 2 but writes the server
index into slot 31 — the LAST free slot — leaving slot 0 (the first free
slot) untouched. -/
theorem c1_first_free_slot_counterexample :
    (connectToServer ((none : Option ServerM) :: some ⟨2, 7⟩ :: List.replicate 30 none) 7
      (List.replicate 32 0)).1 = .ok 2 ∧
    (connectToServer ((none : Option ServerM) :: some ⟨2, 7⟩ :: List.replicate 30 none) 7
      (List.replicate 32 0)).2.get? 0 = some 0 ∧
    (connectToServer ((none : Option ServerM) :: some ⟨2, 7⟩ :: List.replicate 30 none) 7
      (List.replicate 32 0)).2.get? 31 = some 2 := by
  refine ⟨by decide, by decide, by decide⟩

/-- C1 (amended): provided no current map entry references a server with
the requested SID (and all entries index within the table), the server
table holds the SID at index `j`, the table slot `j+1` exists and does
not hold the SID, and a free slot remains both before and after the
first call, then: the first call returns CID `j+1` and writes `j+1` into
the LAST free (value 0) slot, and a repeat call returns the same CID
`j+1` — but writes a further copy of the entry into the then-last free
slot instead of leaving the map unmodified. -/
theorem c1_connect_amended (servers : List (Option ServerM)) (sid : Nat)
    (cmap : List Nat) (j slot slot2 : Nat)
    (h1 : ∀ v ∈ cmap, ∃ o, servers.get? v = some o ∧ ∀ srv, o = some srv → srv.sid ≠ sid)
    (h2 : findServer servers sid = some j)
    (h3 : ∃ o, servers.get? (j + 1) = some o ∧ ∀ srv, o = some srv → srv.sid ≠ sid)
    (h5 : lastZero cmap = some slot)
    (h6 : lastZero (cmap.set slot (j + 1)) = some slot2) :
    connectToServer servers sid cmap = (.ok (j + 1), cmap.set slot (j + 1)) ∧
    connectToServer servers sid (cmap.set slot (j + 1)) =
      (.ok (j + 1), (cmap.set slot (j + 1)).set slot2 (j + 1)) := by
  have hscan1 := connScan_free servers sid cmap h1 0 none
  rw [h5] at hscan1
  have h1' : ∀ v ∈ cmap.set slot (j + 1), ∃ o, servers.get? v = some o ∧
      ∀ srv, o = some srv → srv.sid ≠ sid := by
    intro v hv
    rcases List.mem_or_eq_of_mem_set hv with hv' | rfl
    · exact h1 v hv'
    · exact h3
  have hscan2 := connScan_free servers sid (cmap.set slot (j + 1)) h1' 0 none
  rw [h6] at hscan2
  constructor
  · simp only [connectToServer, hscan1, h2, Nat.zero_add]
  · simp only [connectToServer, hscan2, h2, Nat.zero_add]

/-- C1 witness: the amended theorem applied at the counterexample's
state.  Both successive calls return CID 2; the first writes slot 31,
the second writes slot 30. -/
theorem c1_connect_amended_witness :
    connectToServer ((none : Option ServerM) :: some ⟨2, 7⟩ :: List.replicate 30 none) 7
      (List.replicate 32 0) = (.ok 2, (List.replicate 32 0).set 31 2) ∧
    connectToServer ((none : Option ServerM) :: some ⟨2, 7⟩ :: List.replicate 30 none) 7
      ((List.replicate 32 0).set 31 2) =
      (.ok 2, ((List.replicate 32 0).set 31 2).set 30 2) := by
  have h1 : ∀ v ∈ (List.replicate 32 (0 : Nat)), ∃ o,
      ((none : Option ServerM) :: some ⟨2, 7⟩ :: List.replicate 30 none).get? v = some o ∧
      ∀ srv, o = some srv → srv.sid ≠ 7 := by
    intro v hv
    have hv0 : v = 0 := List.eq_of_mem_replicate hv
    subst hv0
    exact ⟨none, rfl, fun srv h => by cases h⟩
  have h3 : ∃ o,
      ((none : Option ServerM) :: some ⟨2, 7⟩ :: List.replicate 30 none).get? (1 + 1) = some o ∧
      ∀ srv, o = some srv → srv.sid ≠ 7 := by
    exact ⟨none, by decide, fun srv h => by cases h⟩
  exact c1_connect_amended _ 7 _ 1 31 30 h1 (by decide) h3 (by decide) (by decide)

/-- Successful `current_pid` means the recorded PID's slot exists and its
mapping is the active one. -/
theorem currentPidM_ok (s : Sys) (cp : Nat) (h : currentPidM s = .ok cp) :
    cp = s.pid ∧ ∃ p, s.processes.get? (s.pid - 1) = some p ∧ p.mappingPid = s.active := by
  unfold currentPidM at h
  split at h
  · cases h
  · split at h
    · cases h
    · rename_i p hg
      split at h
      · rename_i hm
        cases h
        exact ⟨rfl, p, hg, hm⟩
      · cases h

/-- Successful `get_process` returns the slot's record, whose mapping
records the requested PID. -/
theorem getProcess_ok (s : Sys) (pid : Nat) (p : Proc) (h : getProcess s pid = .ok p) :
    s.processes.get? (pid - 1) = some p ∧ p.mappingPid = pid := by
  unfold getProcess at h
  split at h
  · cases h
  · split at h
    · cases h
    · rename_i q hg
      split at h
      · cases h
      · rename_i hm
        cases h
        exact ⟨hg, not_not.mp hm⟩

/-- The error slot of the unmap loop, folded with overwriting, ends as
the LAST failure of the list. -/
theorem unmapFold_eq_lastSome (unmap : Nat → Except XousError Nat) (l : List Nat) :
    ∀ init : Option XousError,
      l.foldl (fun acc a => match unmap a with | .error e => some e | .ok _ => acc) init =
      match lastSome (l.filterMap fun a =>
          match unmap a with | .error e => some e | .ok _ => none) with
      | some e => some e
      | none => init := by
  induction l with
  | nil => intro init; rfl
  | cons a rest ih =>
    intro init
    rw [List.foldl_cons, ih]
    cases hu : unmap a with
    | ok p => simp only [List.filterMap_cons, hu]
    | error e =>
      simp only [List.filterMap_cons, hu, lastSome]
      cases lastSome (rest.filterMap fun a =>
          match unmap a with | .error e => some e | .ok _ => none) <;> rfl

/-- The error left after the whole unmap phase is the last failure among
the pages of the range. -/
theorem unmapPhase_error (unmap : Nat → Except XousError Nat) (src len : Nat) :
    (unmapPhase unmap src len).1 = lastSome (unmapErrors unmap src len) := by
  unfold unmapPhase unmapErrors
  cases hu : unmap src with
  | ok p =>
    simp only [hu, List.filterMap_cons]
    rw [unmapFold_eq_lastSome]
    cases lastSome (List.filterMap _ (tailPages src len)) <;> rfl
  | error e =>
    simp only [hu, List.filterMap_cons, lastSome]
    rw [unmapFold_eq_lastSome]

/-- C3: the claim as stated is false.  With the first page failing with
`OutOfMemory` and the second (the later failure) with `BadAddress`,
`send_memory` returns `BadAddress` — the last failure, not the first. -/
theorem c3_first_error_counterexample :
    (sendMemory
      (fun a => if a = 4096 then .error .outOfMemory
        else if a = 8192 then .error .badAddress else .ok a)
      (fun _ _ _ => .ok 0) sysOneProc 4096 1 8192).1 = .err .badAddress ∧
    (fun a => if a = 4096 then (Except.error XousError.outOfMemory)
        else if a = 8192 then .error .badAddress else .ok a) 4096
      = .error .outOfMemory ∧
    (sendMemory
      (fun a => if a = 4096 then .error .outOfMemory
        else if a = 8192 then .error .badAddress else .ok a)
      (fun _ _ _ => .ok 0) sysOneProc 4096 1 8192).1 ≠ .err .outOfMemory := by
  refine ⟨by decide, rfl, by decide⟩

/-- C3 (amended): the unmap loop continues past each failure, and the
error value returned after the loop is the LAST failure encountered, not
the first: when the pages of `[src, src+len)` produce at least one unmap
failure, `send_memory` returns `Err` of the last one. -/
theorem c3_last_error_returned (unmap : Nat → Except XousError Nat)
    (mapRange : Nat → Nat → Nat → Except XousError Nat)
    (s : Sys) (srcVirt destPid len : Nat) (cp : Nat)
    (hcp : currentPidM s = .ok cp) :
    (unmapPhase unmap srcVirt len).1 = lastSome (unmapErrors unmap srcVirt len) ∧
    ∀ e, lastSome (unmapErrors unmap srcVirt len) = some e →
      (sendMemory unmap mapRange s srcVirt destPid len).1 = .err e := by
  refine ⟨unmapPhase_error unmap srcVirt len, fun e he => ?_⟩
  have hup : (unmapPhase unmap srcVirt len).1 = some e := by
    rw [unmapPhase_error unmap srcVirt len, he]
  rcases hpair : unmapPhase unmap srcVirt len with ⟨o, ph⟩
  rw [hpair] at hup
  simp only at hup
  subst hup
  simp only [sendMemory, hcp, hpair]

/-- `set_context_result` restores the caller's address space on every
non-panicking exit. -/
theorem setContextResult_restores (s : Sys) (pid context : Nat)
    (hnp : (setContextResult s pid context).1 ≠ .panic) :
    (setContextResult s pid context).2 = s.active := by
  cases hc : currentPidM s with
  | ok cp =>
    obtain ⟨hcp, p, hp, hpa⟩ := currentPidM_ok s cp hc
    cases hg : getProcess s pid with
    | ok tp =>
      cases hg2 : getProcess s cp with
      | ok curp =>
        obtain ⟨hcg, -⟩ := getProcess_ok s cp curp hg2
        rw [hcp, hp] at hcg
        cases hcg
        simp only [setContextResult, hc, hg, hg2]
        exact hpa
      | err e2 =>
        exfalso
        apply hnp
        simp only [setContextResult, hc, hg, hg2]
      | panic =>
        exfalso
        apply hnp
        simp only [setContextResult, hc, hg, hg2]
    | err e => simp only [setContextResult, hc, hg]
    | panic => simp only [setContextResult, hc, hg]
  | err e =>
    exfalso
    apply hnp
    simp only [setContextResult, hc]
  | panic =>
    exfalso
    apply hnp
    simp only [setContextResult, hc]

/-- `queue_server_message` restores the caller's address space on every
non-panicking exit. -/
theorem queueServerMessage_restores (s : Sys) (qres : Except XousError Unit) (sidx : Nat)
    (hnp : (queueServerMessage s qres sidx).1 ≠ .panic) :
    (queueServerMessage s qres sidx).2 = s.active := by
  cases hc : currentPidM s with
  | ok cp =>
    obtain ⟨hcp, p, hp, hpa⟩ := currentPidM_ok s cp hc
    cases hsv : serverFromSidx s.servers sidx with
    | ok o =>
      cases o with
      | none => simp only [queueServerMessage, hc, hsv]
      | some srv =>
        cases hg : getProcess s srv.pid with
        | ok sp =>
          cases hg2 : getProcess s cp with
          | ok curp =>
            obtain ⟨hcg, -⟩ := getProcess_ok s cp curp hg2
            rw [hcp, hp] at hcg
            cases hcg
            cases qres with
            | ok u => simp only [queueServerMessage, hc, hsv, hg, hg2]; exact hpa
            | error e => simp only [queueServerMessage, hc, hsv, hg, hg2]; exact hpa
          | err e2 =>
            exfalso
            apply hnp
            simp only [queueServerMessage, hc, hsv, hg, hg2]
          | panic =>
            exfalso
            apply hnp
            simp only [queueServerMessage, hc, hsv, hg, hg2]
        | err e => simp only [queueServerMessage, hc, hsv, hg]
        | panic =>
          exfalso
          apply hnp
          simp only [queueServerMessage, hc, hsv, hg]
    | err e => simp only [queueServerMessage, hc, hsv]
    | panic =>
      exfalso
      apply hnp
      simp only [queueServerMessage, hc, hsv]
  | err e =>
    exfalso
    apply hnp
    simp only [queueServerMessage, hc]
  | panic =>
    exfalso
    apply hnp
    simp only [queueServerMessage, hc]

/-- `send_memory` restores the caller's address space on every
non-panicking exit (unmap-phase errors and a missing destination return
before any switch; the success path re-activates the caller; the
map-failure path re-activates the caller and then panics in the final
`println!`'s `unwrap`, so it never returns). -/
theorem sendMemory_restores (unmap : Nat → Except XousError Nat)
    (mapRange : Nat → Nat → Nat → Except XousError Nat)
    (s : Sys) (srcVirt destPid len : Nat)
    (hnp : (sendMemory unmap mapRange s srcVirt destPid len).1 ≠ .panic) :
    (sendMemory unmap mapRange s srcVirt destPid len).2 = s.active := by
  cases hc : currentPidM s with
  | ok cp =>
    obtain ⟨hcp, p, hp, hpa⟩ := currentPidM_ok s cp hc
    rcases hpair : unmapPhase unmap srcVirt len with ⟨o, ph⟩
    cases o with
    | some e => simp only [sendMemory, hc, hpair]
    | none =>
      cases hg : getProcess s destPid with
      | ok dp =>
        cases hg2 : getProcess s cp with
        | ok curp =>
          obtain ⟨hcg, -⟩ := getProcess_ok s cp curp hg2
          rw [hcp, hp] at hcg
          cases hcg
          cases hm : mapRange ph len destPid with
          | ok virt => simp only [sendMemory, hc, hpair, hg, hg2, hm]; exact hpa
          | error e =>
            exfalso
            apply hnp
            simp only [sendMemory, hc, hpair, hg, hg2, hm]
        | err e2 =>
          exfalso
          apply hnp
          simp only [sendMemory, hc, hpair, hg, hg2]
        | panic =>
          exfalso
          apply hnp
          simp only [sendMemory, hc, hpair, hg, hg2]
      | err e => simp only [sendMemory, hc, hpair, hg]
      | panic =>
        exfalso
        apply hnp
        simp only [sendMemory, hc, hpair, hg]
  | err e =>
    exfalso
    apply hnp
    simp only [sendMemory, hc]
  | panic =>
    exfalso
    apply hnp
    simp only [sendMemory, hc]

/-- C7: each of `send_memory`, `set_context_result` and
`queue_server_message` leaves the active address space on return equal
to the address space that was active when it was called, on every exit
path including every error return (a panic is not a return). -/
theorem c7_active_space_restored :
    (∀ s pid context, (setContextResult s pid context).1 ≠ .panic →
      (setContextResult s pid context).2 = s.active) ∧
    (∀ s qres sidx, (queueServerMessage s qres sidx).1 ≠ .panic →
      (queueServerMessage s qres sidx).2 = s.active) ∧
    (∀ unmap mapRange s srcVirt destPid len,
      (sendMemory unmap mapRange s srcVirt destPid len).1 ≠ .panic →
      (sendMemory unmap mapRange s srcVirt destPid len).2 = s.active) :=
  ⟨setContextResult_restores, queueServerMessage_restores, sendMemory_restores⟩

/-- C7 witness: concrete runs of all three operations (a success, an
error return, and a success respectively) end with address space 1, the
one active at entry. -/
theorem c7_active_space_restored_witness :
    (setContextResult sysOneProc 1 0).2 = sysOneProc.active ∧
    (queueServerMessage sysOneProc (.ok ()) 33).2 = sysOneProc.active ∧
    (sendMemory (fun a => .ok a) (fun _ _ _ => .ok 0) sysOneProc 4096 1 4096).2
      = sysOneProc.active := by
  refine ⟨c7_active_space_restored.1 sysOneProc 1 0 (by decide),
    c7_active_space_restored.2.1 sysOneProc (.ok ()) 33 (by decide),
    c7_active_space_restored.2.2 (fun a => .ok a) (fun _ _ _ => .ok 0)
      sysOneProc 4096 1 4096 (by decide)⟩

/-- C2: evaluation at the failing input.  A same-PID switch to thread 3
with `can_resume = false` succeeds but leaves the new process in
`Running(12)` with `current_context = 3`: bit 3 — the newly running
context — is still set in the mask, instead of the claimed
`Running(mask \x5c \x7bnew_ctx\x7d) = Running(0)` (the previous context's bit is
added and the new context's bit is never cleared on this branch). -/
theorem c2_same_pid_no_resume_bug :
    activateProcessContext 31 sysC2 1 3 false false =
      .ok (3, { pid := 1
                processes := ⟨1, .running 12, 0, 3, 2⟩ :: List.replicate 31 ⟨0, .free, 0, 0, 2⟩
                servers := List.replicate 32 none
                active := 1 }) ∧
    (12 &&& (1 <<< 3) ≠ 0) ∧
    clearBit (8 ||| (1 <<< 2)) 3 = 4 ∧ (12 : Nat) ≠ 4 := by
  refine ⟨by decide, by decide, by decide, by decide⟩

/-- C6: the claim as stated is false.  Activating PID 2 (state
`Ready(0)`) with `new_ctx = 0` panics at `assert!(x != 0)`; it does not
return `ProcessNotFound`. -/
theorem c6_zero_mask_counterexample :
    activateProcessContext 31 sysC6 2 0 true false = .panic ∧
    activateProcessContext 31 sysC6 2 0 true false ≠ .err .processNotFound := by
  refine ⟨by decide, by decide⟩

/-- Whenever the round-robin scan returns a context, that context's bit
is set in the mask it scanned. -/
theorem scanNextCtx_ok_bit (maxCtx x start : Nat) :
    ∀ fuel nc ctx, scanNextCtx maxCtx x start fuel nc = .ok ctx →
      x &&& (1 <<< ctx) ≠ 0 := by
  intro fuel
  induction fuel with
  | zero =>
    intro nc ctx h
    simp only [scanNextCtx] at h
    split at h
    · rename_i hb
      cases h
      exact hb
    · cases h
  | succ fuel ih =>
    intro nc ctx h
    simp only [scanNextCtx] at h
    split at h
    · rename_i hb
      cases h
      exact hb
    · split at h
      · cases h
      · exact ih _ _ h

/-- When the target is `Ready(x)` or `Running(x)` and `new_ctx = 0`, a
successful context choice picks a context whose bit is set in `x`. -/
theorem chooseNewContext_ok_bit (maxCtx : Nat) (p : Proc) (x ctx : Nat)
    (hst : p.state = .ready x ∨ p.state = .running x)
    (h : chooseNewContext maxCtx p 0 = .ok ctx) :
    x &&& (1 <<< ctx) ≠ 0 := by
  rcases hst with h1 | h1 <;>
  · simp only [chooseNewContext, h1] at h
    split at h
    · cases h
    · rw [if_pos trivial] at h
      exact scanNextCtx_ok_bit maxCtx x p.currentContext _ _ ctx h

/-- A successful `finishActivate` returns exactly the chosen context. -/
theorem finishActivate_ok_fst (s : Sys) (newPid newContext ctx : Nat) (s' : Sys)
    (h : finishActivate s newPid newContext = .ok (ctx, s')) : ctx = newContext := by
  unfold finishActivate at h
  split at h
  · cases h
  · cases h
    rfl

/-- A successful cross-PID activation returns exactly the context chosen
by the validation phase. -/
theorem activate_ok_chosen (maxCtx : Nat) (s : Sys) (newPid newContext0 : Nat)
    (canResume advanceContext : Bool) (p : Proc) (ctx : Nat) (s' : Sys)
    (hp : getProcessMut s newPid = .ok p)
    (hne : newPid ≠ s.pid)
    (hact : activateProcessContext maxCtx s newPid newContext0 canResume advanceContext
      = .ok (ctx, s')) :
    chooseNewContext maxCtx p newContext0 = .ok ctx := by
  cases hc : currentPidM s with
  | err e =>
    simp only [activateProcessContext, hc] at hact
    exact Res.noConfusion hact
  | panic =>
    simp only [activateProcessContext, hc] at hact
    exact Res.noConfusion hact
  | ok previousPid =>
    obtain ⟨hpp, q, hq, -⟩ := currentPidM_ok s previousPid hc
    subst hpp
    simp only [activateProcessContext, hc, hq, if_pos hne, hp] at hact
    cases hch : chooseNewContext maxCtx p newContext0 with
    | err e =>
      rw [hch] at hact
      exact Res.noConfusion hact
    | panic =>
      rw [hch] at hact
      exact Res.noConfusion hact
    | ok newContext =>
      simp only [hch] at hact
      cases hns : newStateAfter p newContext with
      | ok nst =>
        simp only [hns] at hact
        split at hact
        · split at hact
          · rw [finishActivate_ok_fst _ _ _ _ _ hact]
          · exact Res.noConfusion hact
        · exact Res.noConfusion hact
      | err e =>
        simp only [hns] at hact
        exact Res.noConfusion hact
      | panic =>
        simp only [hns] at hact
        exact Res.noConfusion hact

/-- C6 (amended): for a target in `Ready(mask)`/`Running(mask)` reached
with `new_pid ≠ current_pid`: when `mask == 0` the call PANICS at
`assert!(x != 0)` rather than returning `ProcessNotFound` (the error is
reserved for a full scan revolution with `mask ≠ 0`); when the call
succeeds with `new_ctx == 0`, the returned context was picked by the
forward round-robin scan, so its bit is set in `mask`. -/
theorem c6_zero_mask_panics_roundrobin (maxCtx : Nat) (s : Sys)
    (newPid newContext0 : Nat) (canResume advanceContext : Bool) (x : Nat) (p : Proc)
    (hp : getProcessMut s newPid = .ok p)
    (hne : newPid ≠ s.pid)
    (hst : p.state = .ready x ∨ p.state = .running x) :
    (x = 0 →
      activateProcessContext maxCtx s newPid newContext0 canResume advanceContext = .panic) ∧
    (∀ ctx s', newContext0 = 0 →
      activateProcessContext maxCtx s newPid newContext0 canResume advanceContext
        = .ok (ctx, s') →
      x &&& (1 <<< ctx) ≠ 0) := by
  constructor
  · intro hx0
    subst hx0
    have hch : chooseNewContext maxCtx p newContext0 = .panic := by
      rcases hst with h1 | h1 <;> simp [chooseNewContext, h1]
    cases hc : currentPidM s with
    | err e => simp only [activateProcessContext, hc]
    | panic => simp only [activateProcessContext, hc]
    | ok previousPid =>
      obtain ⟨hpp, q, hq, -⟩ := currentPidM_ok s previousPid hc
      subst hpp
      simp only [activateProcessContext, hc, hq, if_pos hne, hp, hch]
  · intro ctx s' h0 hact
    subst h0
    exact chooseNewContext_ok_bit maxCtx p x ctx hst
      (activate_ok_chosen maxCtx s newPid 0 canResume advanceContext p ctx s' hp hne hact)

/-- C6 witness: the amended theorem applied at `sysC6` (target
`Ready(0)`, `new_ctx = 7`, `can_resume = false`, `advance = true`): the
call panics. -/
theorem c6_zero_mask_witness :
    activateProcessContext 31 sysC6 2 7 false true = .panic :=
  (c6_zero_mask_panics_roundrobin 31 sysC6 2 7 false true 0 ⟨2, .ready 0, 1, 2, 2⟩
    (by decide) (by decide) (Or.inl rfl)).1 rfl

/-- Setting a valid slot makes that slot hold the new value. -/
theorem get?_set_same {α : Type} (l : List α) (n : Nat) (a : α) (h : n < l.length) :
    (l.set n a).get? n = some a := by
  rw [List.get?_eq_getElem?, List.getElem?_set]
  simp [h]

/-- Setting one slot leaves every other slot unchanged. -/
theorem get?_set_diff {α : Type} (l : List α) (m n : Nat) (a : α) (h : m ≠ n) :
    (l.set m a).get? n = l.get? n := by
  rw [List.get?_eq_getElem?, List.getElem?_set, if_neg h, List.get?_eq_getElem?]

/-- Anatomy of a successful `initStep`. -/
theorem initStep_some (s : Sys) (d : InitialProcess) (s1 : Sys)
    (h : initStep s d = some s1) :
    ∃ p, pidOfDesc d ≠ 0 ∧ s.processes.get? (pidOfDesc d - 1) = some p ∧
      s1 = setProcAt s (pidOfDesc d - 1) (descProc p d) := by
  simp only [initStep] at h
  split at h
  · cases h
  · rename_i h0
    split at h
    · cases h
    · rename_i p hg
      cases h
      exact ⟨p, h0, hg, rfl⟩

/-- The descriptor loop leaves untouched every slot no descriptor maps
to. -/
theorem initLoop_untouched (ds : List InitialProcess) :
    ∀ s s' i, initLoop s ds = some s' → (∀ d ∈ ds, pidOfDesc d - 1 ≠ i) →
      s'.processes.get? i = s.processes.get? i := by
  induction ds with
  | nil =>
    intro s s' i h _
    cases h
    rfl
  | cons d rest ih =>
    intro s s' i h hni
    cases hs : initStep s d with
    | none =>
      simp only [initLoop, hs] at h
      exact Option.noConfusion h
    | some s1 =>
      simp only [initLoop, hs] at h
      obtain ⟨p, h0, hg, hs1⟩ := initStep_some s d s1 hs
      have hstep : s1.processes.get? i = s.processes.get? i := by
        rw [hs1]
        exact get?_set_diff _ _ _ _ (hni d (List.mem_cons_self _ _))
      rw [ih s1 s' i h (fun d' hd' => hni d' (List.mem_cons_of_mem _ hd')), hstep]

/-- Each descriptor's slot, after the loop, holds the record the loop
wrote for it (given pairwise-distinct, nonzero PIDs). -/
theorem initLoop_written (ds : List InitialProcess) :
    ∀ s s', initLoop s ds = some s' →
      List.Pairwise (fun a b => pidOfDesc a ≠ pidOfDesc b) ds →
      (∀ d' ∈ ds, 1 ≤ pidOfDesc d') →
      ∀ d ∈ ds, ∃ p, s'.processes.get? (pidOfDesc d - 1) = some (descProc p d) := by
  induction ds with
  | nil =>
    intro s s' _ _ _ d hd
    cases hd
  | cons d0 rest ih =>
    intro s s' h hpw hge d hd
    obtain ⟨hhead, htail⟩ := List.pairwise_cons.mp hpw
    cases hs : initStep s d0 with
    | none =>
      simp only [initLoop, hs] at h
      exact Option.noConfusion h
    | some s1 =>
      simp only [initLoop, hs] at h
      rcases List.mem_cons.mp hd with rfl | hdr
      · obtain ⟨p, h0, hg, hs1⟩ := initStep_some s d s1 hs
        obtain ⟨hlt, -⟩ := List.get?_eq_some.mp hg
        have hslot : s1.processes.get? (pidOfDesc d - 1) = some (descProc p d) := by
          rw [hs1]
          exact get?_set_same _ _ _ hlt
        have hsame : s'.processes.get? (pidOfDesc d - 1) =
            s1.processes.get? (pidOfDesc d - 1) := by
          refine initLoop_untouched rest s1 s' _ h (fun d' hd' => ?_)
          have hne := hhead d' hd'
          have h1 := hge d (List.mem_cons_self _ _)
          have h2 := hge d' (List.mem_cons_of_mem _ hd')
          omega
        exact ⟨p, hsame.trans hslot⟩
      · exact ih s1 s' h htail (fun d' hd' => hge d' (List.mem_cons_of_mem _ hd')) d hdr

/-- The loop succeeds and preserves the table length when every
descriptor's PID lies in `[1, 32]`. -/
theorem initLoop_total (ds : List InitialProcess) :
    ∀ s, s.processes.length = 32 →
      (∀ d ∈ ds, 1 ≤ pidOfDesc d ∧ pidOfDesc d ≤ 32) →
      ∃ s', initLoop s ds = some s' ∧ s'.processes.length = 32 := by
  induction ds with
  | nil =>
    intro s hl _
    exact ⟨s, rfl, hl⟩
  | cons d rest ih =>
    intro s hl hv
    obtain ⟨h1, h2⟩ := hv d (List.mem_cons_self _ _)
    have hlt : pidOfDesc d - 1 < s.processes.length := by omega
    cases hg : s.processes.get? (pidOfDesc d - 1) with
    | none =>
      have := List.get?_eq_none.mp hg
      omega
    | some p =>
      have hs : initStep s d = some (setProcAt s (pidOfDesc d - 1) (descProc p d)) := by
        simp only [initStep, hg]
        rw [if_neg (by omega : ¬ pidOfDesc d = 0)]
      obtain ⟨s', hloop, hlen'⟩ := ih (setProcAt s (pidOfDesc d - 1) (descProc p d))
        (by simp [setProcAt, hl]) (fun d' hd' => hv d' (List.mem_cons_of_mem _ hd'))
      refine ⟨s', ?_, hlen'⟩
      simp only [initLoop, hs]
      exact hloop

/-- C8: after `init` runs over a boot descriptor array (with in-range,
pairwise-distinct PIDs, over the 32-slot table), every descriptor's slot
is chosen as `pid - 1` with `pid = (satp >> 22) & 0x1ff`; the pid-1
descriptor ends `Running(0)` with `current_context = INITIAL_CONTEXT`
and parent 0, every other descriptor ends
`Setup(entrypoint, sp, 131072)` with parent 1. -/
theorem c8_init_boot (s : Sys) (ds : List InitialProcess)
    (hlen : s.processes.length = 32)
    (hpid : ∀ d ∈ ds, 1 ≤ pidOfDesc d ∧ pidOfDesc d ≤ 32)
    (hnodup : List.Pairwise (fun a b => pidOfDesc a ≠ pidOfDesc b) ds) :
    ∃ s', initSS s ds = some s' ∧ ∀ d ∈ ds,
      (pidOfDesc d = 1 →
        ∃ p, s'.processes.get? 0 = some p ∧ p.state = .running 0 ∧ p.ppid = 0 ∧
          p.mappingPid = 1 ∧ p.currentContext = INITIAL_CONTEXT) ∧
      (pidOfDesc d ≠ 1 →
        ∃ p, s'.processes.get? (pidOfDesc d - 1) = some p ∧
          p.state = .setup d.entrypoint d.sp DEFAULT_STACK_SIZE ∧ p.ppid = 1 ∧
          p.mappingPid = pidOfDesc d) := by
  obtain ⟨s1, hloop, hlen1⟩ := initLoop_total ds s hlen hpid
  cases hg0 : s1.processes.get? 0 with
  | none =>
    have := List.get?_eq_none.mp hg0
    omega
  | some p0 =>
    have hss : initSS s ds =
        some (setProcAt s1 0 { p0 with currentContext := INITIAL_CONTEXT }) := by
      simp only [initSS, hloop, hg0]
    refine ⟨_, hss, fun d hd => ?_⟩
    obtain ⟨p, hp⟩ := initLoop_written ds s s1 hloop hnodup
      (fun d' hd' => (hpid d' hd').1) d hd
    constructor
    · intro h1
      have hslot0 : pidOfDesc d - 1 = 0 := by omega
      rw [hslot0] at hp
      rw [hg0] at hp
      have hp0 : p0 = descProc p d := by
        injection hp
      refine ⟨{ p0 with currentContext := INITIAL_CONTEXT }, ?_, ?_, ?_, ?_, rfl⟩
      · simp only [setProcAt]
        exact get?_set_same _ _ _ (by omega)
      · rw [hp0]
        simp [descProc, h1]
      · rw [hp0]
        simp [descProc, h1]
      · rw [hp0]
        simp [descProc, h1]
    · intro h1
      have h2 := (hpid d hd).1
      have hne0 : (0 : Nat) ≠ pidOfDesc d - 1 := by omega
      refine ⟨descProc p d, ?_, ?_, ?_, ?_⟩
      · simp only [setProcAt]
        rw [get?_set_diff _ _ _ _ hne0]
        exact hp
      · simp [descProc, h1]
      · simp [descProc, h1]
      · simp [descProc, h1]

/-- C8 witness: the theorem applied to the two-descriptor boot. -/
theorem c8_init_boot_witness :
    ∃ s', initSS sysBoot bootDescs = some s' ∧ ∀ d ∈ bootDescs,
      (pidOfDesc d = 1 →
        ∃ p, s'.processes.get? 0 = some p ∧ p.state = .running 0 ∧ p.ppid = 0 ∧
          p.mappingPid = 1 ∧ p.currentContext = INITIAL_CONTEXT) ∧
      (pidOfDesc d ≠ 1 →
        ∃ p, s'.processes.get? (pidOfDesc d - 1) = some p ∧
          p.state = .setup d.entrypoint d.sp DEFAULT_STACK_SIZE ∧ p.ppid = 1 ∧
          p.mappingPid = pidOfDesc d) :=
  c8_init_boot sysBoot bootDescs (by decide) (by decide) (by decide)

/-- C9: `ready_context(pid, ctx)` maps `Running(x)` with bit `ctx` clear
to `Running(x | 1 << ctx)`, `Ready(x)` with the bit clear to
`Ready(x | 1 << ctx)`, and `Sleeping` to `Ready(1 << ctx)`; when the bit
is already set in a Running or Ready mask, or the state is Free or
Setup, the call panics rather than being a no-op. -/
theorem c9_ready_context (s : Sys) (pid context : Nat) (p : Proc)
    (hp : getProcessMut s pid = .ok p) :
    (∀ x, p.state = .running x → x &&& (1 <<< context) = 0 →
      readyContext s pid context =
        .ok (setProcAt s (pid - 1) { p with state := .running (x ||| (1 <<< context)) })) ∧
    (∀ x, p.state = .ready x → x &&& (1 <<< context) = 0 →
      readyContext s pid context =
        .ok (setProcAt s (pid - 1) { p with state := .ready (x ||| (1 <<< context)) })) ∧
    (p.state = .sleeping →
      readyContext s pid context =
        .ok (setProcAt s (pid - 1) { p with state := .ready (1 <<< context) })) ∧
    (∀ x, p.state = .running x → x &&& (1 <<< context) ≠ 0 →
      readyContext s pid context = .panic) ∧
    (∀ x, p.state = .ready x → x &&& (1 <<< context) ≠ 0 →
      readyContext s pid context = .panic) ∧
    (p.state = .free → readyContext s pid context = .panic) ∧
    (∀ e stk z, p.state = .setup e stk z → readyContext s pid context = .panic) := by
  refine ⟨?_, ?_, ?_, ?_, ?_, ?_, ?_⟩
  · intro x hst hbit
    simp only [readyContext, hp, hst]
    rw [if_pos hbit]
  · intro x hst hbit
    simp only [readyContext, hp, hst]
    rw [if_pos hbit]
  · intro hst
    simp only [readyContext, hp, hst]
  · intro x hst hbit
    simp only [readyContext, hp, hst]
    rw [if_neg hbit]
  · intro x hst hbit
    simp only [readyContext, hp, hst]
    rw [if_neg hbit]
  · intro hst
    simp only [readyContext, hp, hst]
  · intro e stk z hst
    simp only [readyContext, hp, hst]

/-- C9 witness: waking thread 3 of the Running(0) process adds bit 3;
waking it again (bit now set) panics; a Free slot also panics. -/
theorem c9_ready_context_witness :
    readyContext sysOneProc 1 3 =
      .ok (setProcAt sysOneProc 0 ⟨1, .running 8, 0, 2, 2⟩) := by
  exact (c9_ready_context sysOneProc 1 3 ⟨1, .running 0, 0, 2, 2⟩ (by decide)).1
    0 rfl (by decide)

/-- C3 witness: the amended theorem applied at the two-failure oracle;
the returned error is the last failure (`BadAddress`). -/
theorem c3_last_error_returned_witness :
    (sendMemory
      (fun a => if a = 4096 then .error .outOfMemory
        else if a = 8192 then .error .badAddress else .ok a)
      (fun _ _ _ => .ok 0) sysOneProc 4096 1 8192).1 = .err .badAddress := by
  exact (c3_last_error_returned
    (fun a => if a = 4096 then .error .outOfMemory
      else if a = 8192 then .error .badAddress else .ok a)
    (fun _ _ _ => .ok 0) sysOneProc 4096 1 8192 1 (by decide)).2 .badAddress (by decide)
